import Mathlib

/-!
Shallow embedding of the LedgerFlow balance core: the two PostgreSQL trigger
functions (`update_account_balance`, `calculate_running_balance` from the
migrations under `supabase/migrations/`) and the UI mutation handlers that
drive them (`Transactions.tsx`, the account form submit handlers, and the
quick-entry widget).

Modelling choices:
- `DECIMAL(15,2)` money values are embedded as `Int` (a fixed-point scale);
  `DATE` as `Nat`; row ids as `Nat` assigned sequentially (the insertion
  order, which is the only tie-break information available).
- Each SQL statement issued by the client is one atomic step: an `INSERT`
  fires the `BEFORE` row trigger (`calculate_running_balance`), stores the
  row, and fires the `AFTER` row trigger (`update_account_balance`) in one
  database transaction.  The client's separate follow-up statements are
  separate steps.
- The `AFTER INSERT OR UPDATE OR DELETE` trigger body reads `NEW.account_id`;
  for a `DELETE`, `NEW` is NULL (PostgreSQL 11+), so its `UPDATE ... WHERE
  id = NULL` matches no account row.  A delete therefore leaves
  `current_balance` untouched, and the model encodes the delete as a bare
  row removal.
-/

inductive TxnType where
  | credit
  | debit
deriving DecidableEq, Repr

/-- `CASE WHEN type = 'credit' THEN amount WHEN type = 'debit' THEN -amount END`. -/
def signedAmount (ty : TxnType) (amount : Int) : Int :=
  match ty with
  | .credit => amount
  | .debit => -amount

/-- A row of `public.transactions` (the fields the balance logic reads). -/
structure Txn where
  id : Nat
  accountId : Nat
  type : TxnType
  amount : Int
  transaction_date : Nat
  running_balance : Int
deriving DecidableEq, Repr

def txnSigned (t : Txn) : Int :=
  signedAmount t.type t.amount

/-- A row of `public.accounts` (the fields the balance logic reads). -/
structure Account where
  id : Nat
  opening_balance : Int
  current_balance : Int
deriving DecidableEq, Repr

/-- Database state: the `accounts` and `transactions` tables.  `transactions`
is kept in insertion order and `nextId` is the next row id to assign, so a
row's id records its insertion rank. -/
structure LedgerState where
  accounts : List Account
  transactions : List Txn
  nextId : Nat
deriving DecidableEq, Repr

def lookupAccount (s : LedgerState) (aid : Nat) : Option Account :=
  s.accounts.find? (fun a => a.id == aid)

/-- `SELECT ... FROM public.transactions WHERE account_id = aid`. -/
def accountTxns (s : LedgerState) (aid : Nat) : List Txn :=
  s.transactions.filter (fun t => t.accountId == aid)

def sumSignedTxns (l : List Txn) : Int :=
  (l.map txnSigned).sum

/-- The subquery of `update_account_balance`:
`opening_balance + COALESCE(SUM(signed amount), 0)` over all transactions of
the account. -/
def balanceFromLedger (s : LedgerState) (a : Account) : Int :=
  a.opening_balance + sumSignedTxns (accountTxns s a.id)

/-- The body of the `update_account_balance` trigger function, fired with
`NEW.account_id = aid`: `UPDATE public.accounts SET current_balance = (...)
WHERE id = NEW.account_id`, the subquery running over the post-mutation
`transactions` table. -/
def applyUpdateAccountBalance (s : LedgerState) (aid : Nat) : LedgerState :=
  { s with
    accounts := s.accounts.map (fun a =>
      if a.id == aid then { a with current_balance := balanceFromLedger s a } else a) }

/-- The `SELECT COALESCE(opening + SUM(signed), opening)` of
`calculate_running_balance`: sums the signed amounts of the account's
transactions with `transaction_date < date AND id != selfId`.  When the
account row is absent the plpgsql variable keeps its initializer `0`. -/
def prevBalance (s : LedgerState) (aid : Nat) (date : Nat) (selfId : Nat) : Int :=
  let opening : Int :=
    match lookupAccount s aid with
    | some a => a.opening_balance
    | none => 0
  opening + sumSignedTxns (s.transactions.filter (fun t =>
    t.accountId == aid && decide (t.transaction_date < date) && t.id != selfId))

/-- The body of the `calculate_running_balance` `BEFORE INSERT OR UPDATE`
trigger: overwrite `NEW.running_balance` with `prev_balance + signed(NEW)`,
the subquery running over the pre-mutation `transactions` table `s`. -/
def applyCalculateRunningBalance (s : LedgerState) (row : Txn) : Txn :=
  { row with
    running_balance :=
      prevBalance s row.accountId row.transaction_date row.id + txnSigned row }

/-- Error kinds surfaced by a transaction-row statement: the
`CHECK (amount > 0)` constraint and the `account_id` foreign key. -/
inductive LedgerErr where
  | invalidAmount
  | unknownAccount
deriving DecidableEq, Repr

/-- The column values a client supplies for a `transactions` row
(`transactionData` in `Transactions.tsx` / the quick-entry widget), including
the caller-computed `running_balance` field. -/
structure TxnInput where
  accountId : Nat
  type : TxnType
  amount : Int
  transaction_date : Nat
  running_balance : Int
deriving DecidableEq, Repr

/-- One atomic `INSERT INTO public.transactions`: the `CHECK (amount > 0)`
constraint, the `account_id` foreign key, the `BEFORE` trigger computing the
stored `running_balance`, the row write, and the `AFTER` trigger refreshing
the account's `current_balance` — all in one database transaction. -/
def dbInsertTransaction (s : LedgerState) (inp : TxnInput) : Except LedgerErr LedgerState :=
  if inp.amount ≤ 0 then
    .error .invalidAmount
  else if (lookupAccount s inp.accountId).isNone then
    .error .unknownAccount
  else
    let row0 : Txn :=
      { id := s.nextId, accountId := inp.accountId, type := inp.type,
        amount := inp.amount, transaction_date := inp.transaction_date,
        running_balance := inp.running_balance }
    let row := applyCalculateRunningBalance s row0
    let s1 : LedgerState :=
      { s with transactions := s.transactions ++ [row], nextId := s.nextId + 1 }
    .ok (applyUpdateAccountBalance s1 inp.accountId)

/-- One atomic `UPDATE public.transactions ... WHERE id = tid` replacing the
row's columns with `inp` (the edit branch of `handleWizardSubmit` sends the
full `transactionData`).  Both triggers fire on the updated row; the `BEFORE`
trigger's subquery sees the pre-update table (the row itself is excluded by
`id != NEW.id`).  An update matching no row is a no-op. -/
def dbUpdateTransaction (s : LedgerState) (tid : Nat) (inp : TxnInput) :
    Except LedgerErr LedgerState :=
  match s.transactions.find? (fun t => t.id == tid) with
  | none => .ok s
  | some _ =>
    if inp.amount ≤ 0 then
      .error .invalidAmount
    else if (lookupAccount s inp.accountId).isNone then
      .error .unknownAccount
    else
      let row0 : Txn :=
        { id := tid, accountId := inp.accountId, type := inp.type,
          amount := inp.amount, transaction_date := inp.transaction_date,
          running_balance := inp.running_balance }
      let row := applyCalculateRunningBalance s row0
      let s1 : LedgerState :=
        { s with transactions := s.transactions.map (fun t => if t.id == tid then row else t) }
      .ok (applyUpdateAccountBalance s1 inp.accountId)

/-- One atomic `DELETE FROM public.transactions WHERE id = tid`.  The
`update_account_balance_trigger` fires `AFTER DELETE`, but its body's
`UPDATE ... WHERE id = NEW.account_id` compares against NULL and matches no
account, so the only effect is the row removal. -/
def dbDeleteTransaction (s : LedgerState) (tid : Nat) : LedgerState :=
  { s with transactions := s.transactions.filter (fun t => t.id != tid) }

/-! ## UI-layer operations (the client code driving the statements) -/

/-- `calculateRunningBalance` in `Transactions.tsx` (and the inline
computation in the quick-entry widget): `current_balance ± amount` read from
the client's fetched `accounts` list; the sequential model reads the current
state (the page refetches accounts after each submit). -/
def clientRunningBalance (s : LedgerState) (aid : Nat) (ty : TxnType) (amount : Int) : Int :=
  match lookupAccount s aid with
  | none => 0
  | some a => a.current_balance + signedAmount ty amount

/-- The direct `supabase.from('accounts').update({ current_balance: v })`
statement the transaction-insert handlers issue after a successful insert. -/
def uiSetAccountBalance (s : LedgerState) (aid : Nat) (v : Int) : LedgerState :=
  { s with
    accounts := s.accounts.map (fun a =>
      if a.id == aid then { a with current_balance := v } else a) }

/-- The insert branch of `handleWizardSubmit` in `Transactions.tsx` (the
quick-entry `handleSubmit` has the same statement sequence): compute the
client-side running balance, insert the transaction row, and — only if that
succeeded — directly overwrite the account's `current_balance`.  The two
`Bool` oracles inject a `StorageFailure` of either statement; a failed or
rejected statement leaves the state committed so far, mirroring the
`try`/`catch` that merely shows a toast. -/
def handleWizardSubmitNew (s : LedgerState) (inp : TxnInput) (fail1 fail2 : Bool) :
    LedgerState :=
  let rb := clientRunningBalance s inp.accountId inp.type inp.amount
  if fail1 then s
  else
    match dbInsertTransaction s { inp with running_balance := rb } with
    | .error _ => s
    | .ok s1 => if fail2 then s1 else uiSetAccountBalance s1 inp.accountId rb

/-- `handleDelete` in `Transactions.tsx`: a bare
`supabase.from('transactions').delete().eq('id', id)` — no balance write
follows it. -/
def handleDelete (s : LedgerState) (tid : Nat) : LedgerState :=
  dbDeleteTransaction s tid

/-- The `accountData` insert of the account form handlers (`handleSubmit` /
`handleWizardSubmit` of the Accounts page): the new row's `current_balance`
is set to the submitted `opening_balance`. -/
def accountSubmitCreate (s : LedgerState) (aid : Nat) (opening : Int) : LedgerState :=
  { s with
    accounts := s.accounts ++
      [{ id := aid, opening_balance := opening, current_balance := opening }] }

/-- The edit branch of the same handlers: `update(accountData).eq('id', id)`
where `accountData` spreads the form fields and sets
`current_balance: formData.opening_balance`. -/
def accountSubmitEdit (s : LedgerState) (aid : Nat) (opening : Int) : LedgerState :=
  { s with
    accounts := s.accounts.map (fun a =>
      if a.id == aid then
        { a with opening_balance := opening, current_balance := opening }
      else a) }

/-! ## Mutation sequences and scenario states -/

/-- A transaction-table mutation as the database performs it. -/
inductive Mutation where
  | ins (inp : TxnInput)
  | upd (tid : Nat) (inp : TxnInput)
  | del (tid : Nat)
deriving Repr

/-- Apply one mutation; a statement the database rejects leaves the state
unchanged (the client catches the error). -/
def applyMutation (s : LedgerState) (m : Mutation) : LedgerState :=
  match m with
  | .ins inp =>
    match dbInsertTransaction s inp with
    | .ok s' => s'
    | .error _ => s
  | .upd tid inp =>
    match dbUpdateTransaction s tid inp with
    | .ok s' => s'
    | .error _ => s
  | .del tid => dbDeleteTransaction s tid

def applyMutations (s : LedgerState) (ms : List Mutation) : LedgerState :=
  ms.foldl applyMutation s

/-- An insert request for the single-account scenarios (the caller-supplied
`running_balance` is irrelevant — the trigger overwrites it — so it is fixed
to 0 here). -/
structure InsertReq where
  type : TxnType
  amount : Int
  date : Nat
deriving DecidableEq, Repr

def signedReq (i : InsertReq) : Int :=
  signedAmount i.type i.amount

def reqInput (i : InsertReq) : TxnInput :=
  { accountId := 0, type := i.type, amount := i.amount,
    transaction_date := i.date, running_balance := 0 }

def emptyState : LedgerState :=
  { accounts := [], transactions := [], nextId := 0 }

/-- One account (id 0) freshly created with opening balance `b` via the
account form (which sets `current_balance := opening_balance`). -/
def initState (b : Int) : LedgerState :=
  accountSubmitCreate emptyState 0 b

def insertStep (s : LedgerState) (i : InsertReq) : LedgerState :=
  applyMutation s (.ins (reqInput i))

/-- The state reached from a fresh account with opening balance `b` by a
sequence of transaction inserts. -/
def buildState (b : Int) (ins : List InsertReq) : LedgerState :=
  ins.foldl insertStep (initState b)

/-! ## Observation helpers -/

def currentOf (s : LedgerState) (aid : Nat) : Option Int :=
  (lookupAccount s aid).map (fun a => a.current_balance)

def rbOf (s : LedgerState) (tid : Nat) : Option Int :=
  (s.transactions.find? (fun t => t.id == tid)).map (fun t => t.running_balance)

/-- The (transaction_date, id) lexicographic order the spec's tie-break
prescribes: the id records insertion order. -/
def keyLtB (t u : Txn) : Bool :=
  decide (t.transaction_date < u.transaction_date) ||
    (t.transaction_date == u.transaction_date && decide (t.id < u.id))

def insertByKey (t : Txn) : List Txn → List Txn
  | [] => [t]
  | u :: us => if keyLtB t u then t :: u :: us else u :: insertByKey t us

def sortByKey : List Txn → List Txn
  | [] => []
  | t :: ts => insertByKey t (sortByKey ts)

/-- The stored running balances of an account's transactions listed in
(transaction_date, insertion order) order. -/
def rbsInDateOrder (s : LedgerState) (aid : Nat) : List Int :=
  (sortByKey (accountTxns s aid)).map (fun t => t.running_balance)

/-- Modelled from the spec: "the running_balance of the chronologically last
transaction (or opening_balance if none)" — the element that is maximal in
the (transaction_date, tie-break) order. -/
def chronLast : List Txn → Option Txn
  | [] => none
  | t :: ts =>
    some (match chronLast ts with
          | none => t
          | some m => if keyLtB t m then m else t)

/-- Modelled from the spec: the account's current balance defined as the
running balance of the chronologically last transaction, or the opening
balance when the account has no transactions. -/
def specCurrentOf (s : LedgerState) (aid : Nat) : Option Int :=
  (lookupAccount s aid).map (fun a =>
    match chronLast (accountTxns s aid) with
    | none => a.opening_balance
    | some t => t.running_balance)

/-- `current_balance` of the looked-up account recomputed by the
`update_account_balance` subquery. -/
def ledgerCurrentOf (s : LedgerState) (aid : Nat) : Option Int :=
  (lookupAccount s aid).map (fun a => balanceFromLedger s a)

/-- Consistency of one account: its stored `current_balance` agrees with the
`update_account_balance` subquery over the current `transactions` table. -/
def consistentAtB (s : LedgerState) (aid : Nat) : Bool :=
  match lookupAccount s aid with
  | none => true
  | some a => a.current_balance == balanceFromLedger s a

/-- The recomputation the idempotence property runs twice: apply the
`calculate_running_balance` trigger body to every row of the account (its
formula reads only the other rows' date/type/amount fields, so sequential
per-row firing and a simultaneous pass agree), then the
`update_account_balance` body. -/
def recomputeAccount (s : LedgerState) (aid : Nat) : LedgerState :=
  applyUpdateAccountBalance
    { s with
      transactions := s.transactions.map (fun t =>
        if t.accountId == aid then applyCalculateRunningBalance s t else t) } aid

/-! ## Concrete scenario states -/

/-- Account with opening balance 0; insert a credit of 100, then delete it. -/
def insertDeleteState : LedgerState :=
  applyMutations (initState 0)
    [.ins { accountId := 0, type := .credit, amount := 100,
            transaction_date := 5, running_balance := 0 },
     .del 0]

/-- Opening balance 0 with (d1, credit 100) and (d3, debit 30). -/
def backdatedPre : LedgerState :=
  buildState 0 [⟨.credit, 100, 1⟩, ⟨.debit, 30, 3⟩]

/-- ... then the back-dated insert (d2, credit 20), d1 < d2 < d3. -/
def backdatedPost : LedgerState :=
  buildState 0 [⟨.credit, 100, 1⟩, ⟨.debit, 30, 3⟩, ⟨.credit, 20, 2⟩]

/-- ... then the d2 transaction (row id 2) deleted through the UI. -/
def backdatedDeleted : LedgerState :=
  handleDelete backdatedPost 2

/-- Opening balance 0; X = (d5, credit 100) then Y = (d5, credit 50) on the
same date. -/
def sameDateState : LedgerState :=
  buildState 0 [⟨.credit, 100, 5⟩, ⟨.credit, 50, 5⟩]


/-- The per-row map of `recomputeAccount`: fire `calculate_running_balance`
on a row of the account, leave other accounts' rows alone. -/
def recomputeRowsFn (s : LedgerState) (aid : Nat) : Txn → Txn :=
  fun t => if t.accountId == aid then applyCalculateRunningBalance s t else t

/-- The per-account map of `applyUpdateAccountBalance`. -/
def refreshAccountFn (s : LedgerState) (aid : Nat) : Account → Account :=
  fun a => if a.id == aid then { a with current_balance := balanceFromLedger s a } else a


/-- The row handed to the `BEFORE INSERT` trigger for a scenario insert. -/
def reqRow (s : LedgerState) (i : InsertReq) : Txn :=
  { id := s.nextId, accountId := 0, type := i.type, amount := i.amount,
    transaction_date := i.date, running_balance := 0 }

/-! ## Helper lemmas -/

theorem find?_map_accounts (g : Account → Account) (hg : ∀ a, (g a).id = a.id)
    (aid : Nat) :
    ∀ l : List Account,
      (l.map g).find? (fun a => a.id == aid) =
        (l.find? (fun a => a.id == aid)).map g := by
  intro l
  induction l with
  | nil => rfl
  | cons a t ih =>
    simp only [List.map_cons, List.find?_cons, hg a]
    cases h : (a.id == aid)
    · simp [ih]
    · simp

theorem filter_map_txns (f : Txn → Txn) (p : Txn → Bool) (hp : ∀ t, p (f t) = p t) :
    ∀ l : List Txn, (l.map f).filter p = (l.filter p).map f := by
  intro l
  induction l with
  | nil => rfl
  | cons t ts ih =>
    simp only [List.map_cons, List.filter_cons, hp t]
    cases h : p t
    · simp [ih]
    · simp [ih]

theorem sumSignedTxns_map (f : Txn → Txn) (hf : ∀ t, txnSigned (f t) = txnSigned t)
    (l : List Txn) : sumSignedTxns (l.map f) = sumSignedTxns l := by
  unfold sumSignedTxns
  rw [List.map_map]
  have hcomp : txnSigned ∘ f = txnSigned := funext hf
  rw [hcomp]

theorem sumSignedTxns_append (l₁ l₂ : List Txn) :
    sumSignedTxns (l₁ ++ l₂) = sumSignedTxns l₁ + sumSignedTxns l₂ := by
  unfold sumSignedTxns
  rw [List.map_append, List.sum_append]

theorem chronLast_snoc (l : List Txn) (t : Txn) (h : ∀ u ∈ l, keyLtB u t = true) :
    chronLast (l ++ [t]) = some t := by
  induction l with
  | nil => rfl
  | cons u us ih =>
    have hrest : chronLast (us ++ [t]) = some t :=
      ih (fun v hv => h v (List.mem_cons_of_mem u hv))
    have ht : keyLtB u t = true := h u (List.mem_cons_self u us)
    rw [List.cons_append]
    simp [chronLast, hrest, ht]

theorem applyUpdateAccountBalance_eq (s : LedgerState) (aid : Nat) :
    applyUpdateAccountBalance s aid =
      { s with accounts := s.accounts.map (refreshAccountFn s aid) } :=
  rfl

theorem recomputeAccount_eq (s : LedgerState) (aid : Nat) :
    recomputeAccount s aid =
      applyUpdateAccountBalance
        { s with transactions := s.transactions.map (recomputeRowsFn s aid) } aid :=
  rfl

theorem recomputeRowsFn_id (s : LedgerState) (aid : Nat) (t : Txn) :
    (recomputeRowsFn s aid t).id = t.id := by
  unfold recomputeRowsFn
  by_cases h : (t.accountId == aid) = true
  · rw [if_pos h]; rfl
  · rw [if_neg h]

theorem recomputeRowsFn_accountId (s : LedgerState) (aid : Nat) (t : Txn) :
    (recomputeRowsFn s aid t).accountId = t.accountId := by
  unfold recomputeRowsFn
  by_cases h : (t.accountId == aid) = true
  · rw [if_pos h]; rfl
  · rw [if_neg h]

theorem recomputeRowsFn_date (s : LedgerState) (aid : Nat) (t : Txn) :
    (recomputeRowsFn s aid t).transaction_date = t.transaction_date := by
  unfold recomputeRowsFn
  by_cases h : (t.accountId == aid) = true
  · rw [if_pos h]; rfl
  · rw [if_neg h]

theorem recomputeRowsFn_signed (s : LedgerState) (aid : Nat) (t : Txn) :
    txnSigned (recomputeRowsFn s aid t) = txnSigned t := by
  unfold recomputeRowsFn
  by_cases h : (t.accountId == aid) = true
  · rw [if_pos h]; rfl
  · rw [if_neg h]

theorem refreshAccountFn_id (s : LedgerState) (aid : Nat) (a : Account) :
    (refreshAccountFn s aid a).id = a.id := by
  unfold refreshAccountFn
  by_cases h : (a.id == aid) = true
  · rw [if_pos h]
  · rw [if_neg h]

theorem refreshAccountFn_opening (s : LedgerState) (aid : Nat) (a : Account) :
    (refreshAccountFn s aid a).opening_balance = a.opening_balance := by
  unfold refreshAccountFn
  by_cases h : (a.id == aid) = true
  · rw [if_pos h]
  · rw [if_neg h]

/-- The `calculate_running_balance` subquery is unchanged by rewrites of the
state that preserve every transaction's id, account, date and signed amount
and every account's id and opening balance. -/
theorem prevBalance_map_congr (s : LedgerState) (f : Txn → Txn) (g : Account → Account)
    (nid : Nat)
    (hfid : ∀ t, (f t).id = t.id)
    (hfacc : ∀ t, (f t).accountId = t.accountId)
    (hfdate : ∀ t, (f t).transaction_date = t.transaction_date)
    (hfsig : ∀ t, txnSigned (f t) = txnSigned t)
    (hgid : ∀ a, (g a).id = a.id)
    (hgop : ∀ a, (g a).opening_balance = a.opening_balance)
    (x d n : Nat) :
    prevBalance
      { accounts := s.accounts.map g, transactions := s.transactions.map f,
        nextId := nid } x d n = prevBalance s x d n := by
  unfold prevBalance
  have hlook :
      lookupAccount
        { accounts := s.accounts.map g, transactions := s.transactions.map f,
          nextId := nid } x = (lookupAccount s x).map g := by
    unfold lookupAccount
    exact find?_map_accounts g hgid x s.accounts
  rw [hlook]
  have hopen :
      (match (lookupAccount s x).map g with
       | some a => a.opening_balance
       | none => (0 : Int)) =
      (match lookupAccount s x with
       | some a => a.opening_balance
       | none => (0 : Int)) := by
    cases lookupAccount s x
    · rfl
    · simp [hgop]
  rw [hopen]
  have hp : ∀ t : Txn,
      ((f t).accountId == x && decide ((f t).transaction_date < d) && (f t).id != n) =
      (t.accountId == x && decide (t.transaction_date < d) && t.id != n) := by
    intro t
    rw [hfacc, hfdate, hfid]
  have hfilter :
      ((s.transactions.map f).filter (fun t =>
          t.accountId == x && decide (t.transaction_date < d) && t.id != n)) =
        ((s.transactions.filter (fun t =>
          t.accountId == x && decide (t.transaction_date < d) && t.id != n)).map f) :=
    filter_map_txns f _ hp s.transactions
  rw [hfilter, sumSignedTxns_map f hfsig]

/-- The `update_account_balance` subquery is likewise unchanged. -/
theorem balanceFromLedger_map_congr (s : LedgerState) (f : Txn → Txn)
    (accs : List Account) (nid : Nat)
    (hfacc : ∀ t, (f t).accountId = t.accountId)
    (hfsig : ∀ t, txnSigned (f t) = txnSigned t)
    (a : Account) :
    balanceFromLedger
      { accounts := accs, transactions := s.transactions.map f, nextId := nid } a =
      balanceFromLedger s a := by
  unfold balanceFromLedger accountTxns
  have hp : ∀ t : Txn, ((f t).accountId == a.id) = (t.accountId == a.id) := by
    intro t
    rw [hfacc]
  have hred : ({ accounts := accs, transactions := s.transactions.map f,
                 nextId := nid } : LedgerState).transactions = s.transactions.map f := rfl
  rw [hred, filter_map_txns f _ hp s.transactions, sumSignedTxns_map f hfsig]

theorem applyCalc_accountId (s : LedgerState) (t : Txn) :
    (applyCalculateRunningBalance s t).accountId = t.accountId :=
  rfl

theorem applyCalc_stable (s₁ s₂ : LedgerState) (t : Txn)
    (h2 : prevBalance s₂ t.accountId t.transaction_date t.id =
      prevBalance s₁ t.accountId t.transaction_date t.id) :
    applyCalculateRunningBalance s₂ (applyCalculateRunningBalance s₁ t) =
      applyCalculateRunningBalance s₁ t := by
  unfold applyCalculateRunningBalance
  show ({ t with running_balance :=
      prevBalance s₂ t.accountId t.transaction_date t.id + txnSigned t } : Txn) =
    { t with running_balance :=
      prevBalance s₁ t.accountId t.transaction_date t.id + txnSigned t }
  rw [h2]

theorem refreshAccountFn_stable (s₁ s₂ s : LedgerState) (aid : Nat) (a : Account)
    (h1 : balanceFromLedger s₁ a = balanceFromLedger s a)
    (h2 : ∀ x : Account, balanceFromLedger s₂ x = balanceFromLedger s x) :
    refreshAccountFn s₂ aid (refreshAccountFn s₁ aid a) = refreshAccountFn s₁ aid a := by
  unfold refreshAccountFn
  by_cases h : (a.id == aid) = true
  · rw [if_pos h]
    have hid' : ({ a with current_balance := balanceFromLedger s₁ a } : Account).id = a.id :=
      rfl
    rw [hid', if_pos h]
    have hv : balanceFromLedger s₂
        ({ a with current_balance := balanceFromLedger s₁ a } : Account) =
        balanceFromLedger s₁ a := by
      rw [h2]
      have hstrip : balanceFromLedger s
          ({ a with current_balance := balanceFromLedger s₁ a } : Account) =
          balanceFromLedger s a := rfl
      rw [hstrip, ← h1]
    rw [hv]
  · rw [if_neg h, if_neg h]

/-- Claim C9: recalculation is idempotent — running the per-row
`calculate_running_balance` recomputation together with the
`update_account_balance` refresh a second time, with no intervening
transaction mutation, reproduces exactly the same `running_balance` values
and the same `current_balance` as the first run. -/
theorem claim_C9 (s : LedgerState) (aid : Nat) :
    recomputeAccount (recomputeAccount s aid) aid = recomputeAccount s aid := by
  have hfid := recomputeRowsFn_id s aid
  have hfacc := recomputeRowsFn_accountId s aid
  have hfdate := recomputeRowsFn_date s aid
  have hfsig := recomputeRowsFn_signed s aid
  set g : Account → Account := refreshAccountFn
      { accounts := s.accounts,
        transactions := s.transactions.map (recomputeRowsFn s aid),
        nextId := s.nextId } aid with hgdef
  have hgid : ∀ a, (g a).id = a.id := fun a => refreshAccountFn_id _ aid a
  have hgop : ∀ a, (g a).opening_balance = a.opening_balance :=
    fun a => refreshAccountFn_opening _ aid a
  have hsR : recomputeAccount s aid =
      { accounts := s.accounts.map g,
        transactions := s.transactions.map (recomputeRowsFn s aid),
        nextId := s.nextId } := rfl
  -- the row-trigger subquery computes the same on the recomputed state
  have hprev : ∀ x d n, prevBalance (recomputeAccount s aid) x d n = prevBalance s x d n := by
    intro x d n
    rw [hsR]
    exact prevBalance_map_congr s (recomputeRowsFn s aid) g s.nextId
      hfid hfacc hfdate hfsig hgid hgop x d n
  -- the account-refresh subquery computes the same on the recomputed state
  have hbal2 : ∀ a : Account,
      balanceFromLedger (recomputeAccount s aid) a = balanceFromLedger s a := by
    intro a
    rw [hsR]
    exact balanceFromLedger_map_congr s (recomputeRowsFn s aid) _ s.nextId hfacc hfsig a
  -- re-running the row recomputation on its own output changes nothing
  have hrow2 : ∀ t, recomputeRowsFn (recomputeAccount s aid) aid
      (recomputeRowsFn s aid t) = recomputeRowsFn s aid t := by
    intro t
    by_cases h : (t.accountId == aid) = true
    · have hft : recomputeRowsFn s aid t = applyCalculateRunningBalance s t := by
        unfold recomputeRowsFn
        rw [if_pos h]
      rw [hft]
      unfold recomputeRowsFn
      rw [applyCalc_accountId, if_pos h]
      exact applyCalc_stable s (recomputeAccount s aid) t (hprev _ _ _)
    · have hft : recomputeRowsFn s aid t = t := by
        unfold recomputeRowsFn
        rw [if_neg h]
      rw [hft]
      unfold recomputeRowsFn
      rw [if_neg h]
  -- re-running the account refresh on its own output changes nothing
  have hgg : ∀ a, refreshAccountFn (recomputeAccount s aid) aid (g a) = g a := by
    intro a
    rw [hgdef]
    refine refreshAccountFn_stable _ _ s aid a ?_ hbal2
    exact balanceFromLedger_map_congr s (recomputeRowsFn s aid) s.accounts s.nextId
      hfacc hfsig a
  -- assemble
  conv_lhs => rw [recomputeAccount_eq]
  have htx2 : (recomputeAccount s aid).transactions.map
      (recomputeRowsFn (recomputeAccount s aid) aid) =
      (recomputeAccount s aid).transactions := by
    rw [hsR]
    show (s.transactions.map (recomputeRowsFn s aid)).map
      (recomputeRowsFn (recomputeAccount s aid) aid) =
      s.transactions.map (recomputeRowsFn s aid)
    rw [List.map_map]
    have hcomp : (recomputeRowsFn (recomputeAccount s aid) aid ∘ recomputeRowsFn s aid) =
        recomputeRowsFn s aid := funext hrow2
    rw [hcomp]
  rw [htx2]
  have heta : ({ recomputeAccount s aid with
      transactions := (recomputeAccount s aid).transactions } : LedgerState) =
      recomputeAccount s aid := rfl
  rw [heta, applyUpdateAccountBalance_eq]
  have hacc2 : (recomputeAccount s aid).accounts.map
      (refreshAccountFn (recomputeAccount s aid) aid) =
      (recomputeAccount s aid).accounts := by
    rw [hsR]
    show (s.accounts.map g).map (refreshAccountFn (recomputeAccount s aid) aid) =
      s.accounts.map g
    rw [List.map_map]
    have hcomp : (refreshAccountFn (recomputeAccount s aid) aid ∘ g) = g := funext hgg
    rw [hcomp]
  rw [hacc2]

/-- Claim C1: the invariant `current_balance = opening_balance + Σ signed`
fails after a delete.  Opening balance 0, one credit of 100 inserted and then
deleted: the stored `current_balance` stays 100 while the recomputed sum is
0, because the `AFTER DELETE` firing of `update_account_balance` reads
`NEW.account_id`, which is NULL on a delete, and updates no account row. -/
theorem claim_C1_delete_eval :
    currentOf insertDeleteState 0 = some 100 ∧
    ledgerCurrentOf insertDeleteState 0 = some 0 ∧
    (100 : Int) ≠ 0 := by decide

/-- Claim C2, counterexample: X = (d5, credit 100) then Y = (d5, credit 50)
inserted on the same date.  The claim makes Y's running balance
`opening + signed(X) + signed(Y)` = 150, but `calculate_running_balance`
filters on `transaction_date < NEW.transaction_date`, so the same-date X is
excluded and Y stores 50. -/
theorem claim_C2_cex :
    rbOf sameDateState 1 = some 50 ∧
    0 + sumSignedTxns (accountTxns sameDateState 0) = 150 ∧
    rbOf sameDateState 1 ≠ some 150 := by decide

/-- Claim C3, counterexample: with opening balance 0 and rows (d1, credit
100), (d3, debit 30), the back-dated insert (d2, credit 20) stores running
balances [100, 120, 70] in date order, not the claimed [100, 120, 90]: no
trigger recomputes the d3 row, whose stored 70 is left stale. -/
theorem claim_C3_cex :
    rbsInDateOrder backdatedPost 0 = [100, 120, 70] ∧
    currentOf backdatedPost 0 = some 90 ∧
    rbsInDateOrder backdatedPost 0 ≠ [100, 120, 90] := by decide

/-- Claim C3, amended: the premise [100, 70] holds, and the back-dated
insert computes a running balance only for the inserted row (120) and
refreshes `current_balance` to 90; the d3 row's stored running balance stays
70. -/
theorem claim_C3_amended :
    rbsInDateOrder backdatedPre 0 = [100, 70] ∧
    currentOf backdatedPre 0 = some 70 ∧
    rbsInDateOrder backdatedPost 0 = [100, 120, 70] ∧
    currentOf backdatedPost 0 = some 90 := by decide

/-- Claim C4: deleting the d2 row leaves the remaining stored running
balances at [100, 70] (they were never recomputed to [100, 120, 90] in the
first place), but `current_balance` stays 90 instead of the claimed 70: the
`AFTER DELETE` firing of `update_account_balance` reads the NULL
`NEW.account_id` and updates nothing, and `handleDelete` issues no balance
write. -/
theorem claim_C4_delete_eval :
    rbsInDateOrder backdatedDeleted 0 = [100, 70] ∧
    currentOf backdatedDeleted 0 = some 90 ∧
    currentOf backdatedDeleted 0 ≠ some 70 := by decide

/-- Claim C5, counterexample: the account-form edit handler submits
`current_balance := opening_balance`, so editing an account whose balance is
70 (opening 0) resets the stored `current_balance` to 0 — a UI operation
other than the recalculation engine does change `current_balance`. -/
theorem claim_C5_cex :
    currentOf backdatedPre 0 = some 70 ∧
    currentOf (accountSubmitEdit backdatedPre 0 0) 0 = some 0 ∧
    (accountSubmitEdit backdatedPre 0 0).transactions = backdatedPre.transactions ∧
    currentOf (accountSubmitEdit backdatedPre 0 0) 0 ≠ currentOf backdatedPre 0 := by
  decide

/-- Claim C5, amended: the account form writes `current_balance` directly on
both create and edit, setting it to the submitted `opening_balance` (and the
transaction-insert handlers write it directly too); these UI writes leave the
transactions table untouched. -/
theorem claim_C5_amended (s : LedgerState) (aid : Nat) (b : Int) :
    (accountSubmitCreate s aid b).accounts =
      s.accounts ++ [{ id := aid, opening_balance := b, current_balance := b }] ∧
    (accountSubmitCreate s aid b).transactions = s.transactions ∧
    (accountSubmitEdit s aid b).transactions = s.transactions ∧
    lookupAccount (accountSubmitEdit s aid b) aid =
      (lookupAccount s aid).map (fun a =>
        { a with opening_balance := b, current_balance := b }) := by
  refine ⟨rfl, rfl, rfl, ?_⟩
  have hg : ∀ a : Account,
      ((fun a : Account => if a.id == aid then
        { a with opening_balance := b, current_balance := b } else a) a).id = a.id := by
    intro a
    by_cases h : (a.id == aid) = true
    · simp [h]
    · simp [h]
  have hmap := find?_map_accounts _ hg aid s.accounts
  unfold lookupAccount accountSubmitEdit
  rw [hmap]
  cases hfind : s.accounts.find? (fun a => a.id == aid)
  · rfl
  · rename_i a
    have hpa := List.find?_some hfind
    have heq : a.id = aid := by simpa using hpa
    simp [heq]

/-- Claim C6: an attempted transaction insert with `amount ≤ 0` is rejected
(the `CHECK (amount > 0)` constraint, surfaced as `InvalidAmount`) and the
whole submit pipeline leaves the state exactly unchanged: no row is stored,
no running balance is altered and `current_balance` is untouched. -/
theorem claim_C6 (s : LedgerState) (inp : TxnInput) (f1 f2 : Bool)
    (h : inp.amount ≤ 0) :
    handleWizardSubmitNew s inp f1 f2 = s ∧
    dbInsertTransaction s inp = Except.error LedgerErr.invalidAmount := by
  have hins : ∀ rb : Int, dbInsertTransaction s { inp with running_balance := rb } =
      Except.error LedgerErr.invalidAmount := by
    intro rb
    unfold dbInsertTransaction
    simp [h]
  constructor
  · unfold handleWizardSubmitNew
    cases f1
    · simp [hins]
    · simp
  · have hh := hins inp.running_balance
    simpa using hh

theorem claim_C6_witness :
    ((0 : Int) ≤ 0) ∧
    (handleWizardSubmitNew (initState 0)
        { accountId := 0, type := TxnType.credit, amount := 0,
          transaction_date := 1, running_balance := 0 } false false = initState 0 ∧
      dbInsertTransaction (initState 0)
        { accountId := 0, type := TxnType.credit, amount := 0,
          transaction_date := 1, running_balance := 0 } =
        Except.error LedgerErr.invalidAmount) :=
  ⟨by decide,
    claim_C6 (initState 0)
      { accountId := 0, type := TxnType.credit, amount := 0,
        transaction_date := 1, running_balance := 0 } false false (by decide)⟩

/-- Claim C8, counterexample: in the back-dated state the chronologically
last transaction (the d3 row) stores running balance 70, while the
`update_account_balance` sum gives 90 — the two definitions of current
balance disagree on the code's stored values. -/
theorem claim_C8_cex :
    specCurrentOf backdatedPost 0 = some 70 ∧
    ledgerCurrentOf backdatedPost 0 = some 90 ∧
    specCurrentOf backdatedPost 0 ≠ ledgerCurrentOf backdatedPost 0 := by decide

/-- Claim C10: the stored `running_balance` of an inserted or updated row
does not depend on the `running_balance` value the caller supplies —
`calculate_running_balance` overwrites `NEW.running_balance` without reading
it, so two statements differing only in that field produce identical
states. -/
theorem claim_C10 (s : LedgerState) (inp : TxnInput) (rb1 rb2 : Int) (tid : Nat) :
    dbInsertTransaction s { inp with running_balance := rb1 } =
      dbInsertTransaction s { inp with running_balance := rb2 } ∧
    dbUpdateTransaction s tid { inp with running_balance := rb1 } =
      dbUpdateTransaction s tid { inp with running_balance := rb2 } := by
  constructor
  · unfold dbInsertTransaction
    simp [applyCalculateRunningBalance, txnSigned]
  · unfold dbUpdateTransaction
    cases hfind : s.transactions.find? (fun t => t.id == tid)
    · rfl
    · simp [applyCalculateRunningBalance, txnSigned]

/-- Claim C7: recording a transaction and refreshing the owning account's
balance never leaves a half-updated ledger.  The row insert and the
`update_account_balance` refresh are one atomic statement, so whichever step
of the submit pipeline fails (the insert itself, or the follow-up direct
balance write), the committed state still satisfies
`current_balance = opening_balance + Σ signed` for the owning account. -/
theorem claim_C7 (s : LedgerState) (inp : TxnInput) (f1 f2 : Bool)
    (h : consistentAtB s inp.accountId = true) :
    consistentAtB (handleWizardSubmitNew s inp f1 f2) inp.accountId = true := by
  unfold handleWizardSubmitNew
  cases f1
  case true => simpa using h
  case false =>
    simp only [Bool.false_eq_true, ite_false]
    set rbc : Int := clientRunningBalance s inp.accountId inp.type inp.amount with hrbc
    by_cases hamt : inp.amount ≤ 0
    · have herr : dbInsertTransaction s { inp with running_balance := rbc } =
          Except.error LedgerErr.invalidAmount := by
        unfold dbInsertTransaction
        simp [hamt]
      rw [herr]
      exact h
    · cases hlook : lookupAccount s inp.accountId with
      | none =>
        have herr : dbInsertTransaction s { inp with running_balance := rbc } =
            Except.error LedgerErr.unknownAccount := by
          unfold dbInsertTransaction
          rw [if_neg hamt]
          have hnn : ((lookupAccount s inp.accountId).isNone = true) := by
            rw [hlook]
            rfl
          rw [if_pos hnn]
        rw [herr]
        exact h
      | some a0 =>
        have hlookf : s.accounts.find? (fun a => a.id == inp.accountId) = some a0 := hlook
        have ha0 : (a0.id == inp.accountId) = true := by
          have hx := List.find?_some hlookf
          simpa using hx
        have ha0eq : a0.id = inp.accountId := by simpa using ha0
        set row : Txn := applyCalculateRunningBalance s
          { id := s.nextId, accountId := inp.accountId, type := inp.type,
            amount := inp.amount, transaction_date := inp.transaction_date,
            running_balance := rbc } with hrow
        set sIns : LedgerState :=
          { s with transactions := s.transactions ++ [row], nextId := s.nextId + 1 }
          with hsIns
        have hok : dbInsertTransaction s { inp with running_balance := rbc } =
            Except.ok (applyUpdateAccountBalance sIns inp.accountId) := by
          unfold dbInsertTransaction
          rw [if_neg hamt]
          have hnn : ¬ ((lookupAccount s inp.accountId).isNone = true) := by
            rw [hlook]
            simp
          rw [if_neg hnn]
        rw [hok]
        have hrowacc : row.accountId = inp.accountId := by
          rw [hrow]
          rfl
        have hrowsig : txnSigned row = signedAmount inp.type inp.amount := by
          rw [hrow]
          rfl
        -- the account row after the AFTER trigger
        have hS1look : lookupAccount (applyUpdateAccountBalance sIns inp.accountId)
            inp.accountId =
            some { a0 with current_balance := balanceFromLedger sIns a0 } := by
          unfold lookupAccount
          have hS1acc : (applyUpdateAccountBalance sIns inp.accountId).accounts =
              s.accounts.map (refreshAccountFn sIns inp.accountId) := rfl
          rw [hS1acc, find?_map_accounts (refreshAccountFn sIns inp.accountId)
            (refreshAccountFn_id sIns inp.accountId) inp.accountId s.accounts]
          have hfold : s.accounts.find? (fun a => a.id == inp.accountId) = some a0 := hlook
          rw [hfold]
          have hr : refreshAccountFn sIns inp.accountId a0 =
              { a0 with current_balance := balanceFromLedger sIns a0 } := by
            unfold refreshAccountFn
            rw [if_pos ha0]
          rw [Option.map_some', hr]
        -- consistency of the post-insert state (used by both f2 branches)
        have hconsS1 : consistentAtB (applyUpdateAccountBalance sIns inp.accountId)
            inp.accountId = true := by
          unfold consistentAtB
          rw [hS1look]
          show (balanceFromLedger sIns a0 == balanceFromLedger sIns a0) = true
          simp
        cases f2 with
        | true =>
          simpa using hconsS1
        | false =>
          simp only [Bool.false_eq_true, ite_false]
          -- value stored by the direct UI write
          have hcons0 : a0.current_balance = balanceFromLedger s a0 := by
            unfold consistentAtB at h
            rw [hlook] at h
            simpa using h
          have hrbcval : rbc = a0.current_balance + signedAmount inp.type inp.amount := by
            rw [hrbc]
            unfold clientRunningBalance
            rw [hlook]
          have hbalIns : balanceFromLedger sIns a0 =
              balanceFromLedger s a0 + signedAmount inp.type inp.amount := by
            unfold balanceFromLedger accountTxns
            have htx : sIns.transactions = s.transactions ++ [row] := rfl
            rw [htx, List.filter_append]
            have hrowkeep : (row.accountId == a0.id) = true := by
              rw [hrowacc, ha0eq]
              simp
            have hrowfilt : List.filter (fun t => t.accountId == a0.id) [row] = [row] := by
              simp [List.filter, hrowkeep]
            rw [hrowfilt, sumSignedTxns_append]
            have hsing : sumSignedTxns [row] = txnSigned row := by
              simp [sumSignedTxns]
            rw [hsing, hrowsig]
            ring
          have hgoalval : rbc = balanceFromLedger sIns a0 := by
            rw [hrbcval, hcons0, hbalIns]
          -- the looked-up account after the UI write
          have hs2look : lookupAccount
              (uiSetAccountBalance (applyUpdateAccountBalance sIns inp.accountId)
                inp.accountId rbc) inp.accountId =
              some { a0 with current_balance := rbc } := by
            unfold lookupAccount
            have hs2acc : (uiSetAccountBalance (applyUpdateAccountBalance sIns inp.accountId)
                inp.accountId rbc).accounts =
                (applyUpdateAccountBalance sIns inp.accountId).accounts.map
                  (fun a => if a.id == inp.accountId then
                    { a with current_balance := rbc } else a) := rfl
            have hgid2 : ∀ a : Account, ((fun a : Account =>
                if a.id == inp.accountId then { a with current_balance := rbc } else a) a).id =
                a.id := by
              intro a
              by_cases hx : (a.id == inp.accountId) = true
              · simp [hx]
              · simp [hx]
            rw [hs2acc, find?_map_accounts _ hgid2 inp.accountId
              (applyUpdateAccountBalance sIns inp.accountId).accounts]
            have hfold : (applyUpdateAccountBalance sIns inp.accountId).accounts.find?
                (fun a => a.id == inp.accountId) =
                some { a0 with current_balance := balanceFromLedger sIns a0 } := hS1look
            rw [hfold, Option.map_some']
            have hid3 : ({ a0 with current_balance := balanceFromLedger sIns a0 } : Account).id =
                a0.id := rfl
            rw [if_pos (by rw [hid3]; exact ha0)]
          unfold consistentAtB
          rw [hs2look]
          show (rbc == balanceFromLedger sIns a0) = true
          rw [hgoalval]
          simp

theorem claim_C7_witness :
    consistentAtB (initState 0) 0 = true ∧
    consistentAtB (handleWizardSubmitNew (initState 0)
      { accountId := 0, type := TxnType.credit, amount := 100,
        transaction_date := 4, running_balance := 0 } false false) 0 = true :=
  ⟨by decide,
    claim_C7 (initState 0)
      { accountId := 0, type := TxnType.credit, amount := 100,
        transaction_date := 4, running_balance := 0 } false false (by decide)⟩

theorem filter_keep_all (p : Txn → Bool) (l : List Txn) (h : ∀ t ∈ l, p t = true) :
    l.filter p = l := by
  induction l with
  | nil => rfl
  | cons t ts ih =>
    rw [List.filter_cons, h t (List.mem_cons_self t ts)]
    simp only [ite_true]
    rw [ih (fun u hu => h u (List.mem_cons_of_mem t hu))]

theorem filter_congr_txns (p q : Txn → Bool) (l : List Txn) (h : ∀ t ∈ l, p t = q t) :
    l.filter p = l.filter q := by
  induction l with
  | nil => rfl
  | cons t ts ih =>
    rw [List.filter_cons, List.filter_cons, h t (List.mem_cons_self t ts),
      ih (fun u hu => h u (List.mem_cons_of_mem t hu))]

theorem insertStep_ok (s : LedgerState) (i : InsertReq) (b c : Int)
    (hacc : s.accounts = [{ id := 0, opening_balance := b, current_balance := c }])
    (hamt : 0 < i.amount) :
    insertStep s i = applyUpdateAccountBalance
      { s with
        transactions := s.transactions ++ [applyCalculateRunningBalance s (reqRow s i)],
        nextId := s.nextId + 1 } 0 := by
  have h1 : ¬ ((reqInput i).amount ≤ 0) := by
    show ¬ (i.amount ≤ 0)
    omega
  have h2 : ¬ ((lookupAccount s (reqInput i).accountId).isNone = true) := by
    show ¬ ((lookupAccount s 0).isNone = true)
    unfold lookupAccount
    rw [hacc]
    simp
  have hrfl : insertStep s i = (match dbInsertTransaction s (reqInput i) with
    | Except.ok s' => s'
    | Except.error _ => s) := rfl
  have hins : dbInsertTransaction s (reqInput i) = Except.ok (applyUpdateAccountBalance
      { s with
        transactions := s.transactions ++ [applyCalculateRunningBalance s (reqRow s i)],
        nextId := s.nextId + 1 } 0) := by
    unfold dbInsertTransaction
    rw [if_neg h1, if_neg h2]
    rfl
  rw [hrfl, hins]

theorem applyUpdate_single (s : LedgerState) (b c : Int)
    (hacc : s.accounts = [{ id := 0, opening_balance := b, current_balance := c }]) :
    applyUpdateAccountBalance s 0 =
      { accounts :=
          [{ id := 0, opening_balance := b,
             current_balance :=
               b + sumSignedTxns (s.transactions.filter (fun t => t.accountId == 0)) }],
        transactions := s.transactions,
        nextId := s.nextId } := by
  unfold applyUpdateAccountBalance
  rw [hacc]
  simp [balanceFromLedger, accountTxns]

theorem applyCalc_reqRow (s : LedgerState) (i : InsertReq) (b c : Int)
    (hacc : s.accounts = [{ id := 0, opening_balance := b, current_balance := c }]) :
    applyCalculateRunningBalance s (reqRow s i) =
      { id := s.nextId, accountId := 0, type := i.type, amount := i.amount,
        transaction_date := i.date,
        running_balance :=
          b + sumSignedTxns (s.transactions.filter (fun t =>
            t.accountId == 0 && decide (t.transaction_date < i.date) &&
              t.id != s.nextId)) + signedReq i } := by
  unfold applyCalculateRunningBalance prevBalance reqRow lookupAccount
  rw [hacc]
  simp [txnSigned, signedReq, add_assoc]

/-- Characterization of the states reached by inserting a sequence of valid
transactions into a fresh single account: the account row carries
`current_balance = opening + Σ signed`, rows belong to account 0 with ids
below `nextId`, dates come from the inserted requests, and every stored
`running_balance` equals the opening balance plus the signed sum of the
strictly-earlier-dated rows inserted before it, plus its own signed
amount. -/
theorem buildState_inv (b : Int) (ins : List InsertReq) :
    (∀ i ∈ ins, 0 < i.amount) →
    ((buildState b ins).accounts =
      [{ id := 0, opening_balance := b,
         current_balance := b + sumSignedTxns (buildState b ins).transactions }]) ∧
    (∀ t ∈ (buildState b ins).transactions,
      t.accountId = 0 ∧ t.id < (buildState b ins).nextId) ∧
    (∀ t ∈ (buildState b ins).transactions, ∃ j ∈ ins, t.transaction_date = j.date) ∧
    (∀ t ∈ (buildState b ins).transactions,
      t.running_balance =
        b + sumSignedTxns ((buildState b ins).transactions.filter (fun u =>
          decide (u.id < t.id) && decide (u.transaction_date < t.transaction_date))) +
          txnSigned t) := by
  induction ins using List.reverseRecOn with
  | nil =>
    intro _
    refine ⟨?_, ?_, ?_, ?_⟩ <;>
      simp [buildState, initState, accountSubmitCreate, emptyState, sumSignedTxns]
  | append_singleton l i ih =>
    intro hpos
    have hposl : ∀ j ∈ l, 0 < j.amount := fun j hj => hpos j (List.mem_append_left _ hj)
    have hposi : 0 < i.amount := hpos i (List.mem_append_right _ (List.mem_singleton.mpr rfl))
    obtain ⟨hacc, hrows, hdates, hrb⟩ := ih hposl
    have hstep : buildState b (l ++ [i]) = insertStep (buildState b l) i := by
      unfold buildState
      rw [List.foldl_append]
      rfl
    set S := buildState b l with hSdef
    set rowE : Txn :=
      { id := S.nextId, accountId := 0, type := i.type, amount := i.amount,
        transaction_date := i.date,
        running_balance :=
          b + sumSignedTxns (S.transactions.filter (fun t =>
            t.accountId == 0 && decide (t.transaction_date < i.date) &&
              t.id != S.nextId)) + signedReq i } with hrowEdef
    have hrowE : applyCalculateRunningBalance S (reqRow S i) = rowE :=
      applyCalc_reqRow S i b _ hacc
    have hmid : ({ S with
        transactions := S.transactions ++ [rowE],
        nextId := S.nextId + 1 } : LedgerState).accounts =
        [{ id := 0, opening_balance := b,
           current_balance := b + sumSignedTxns S.transactions }] := hacc
    have hkeep : ∀ t ∈ S.transactions ++ [rowE], (t.accountId == 0) = true := by
      intro t ht
      rcases List.mem_append.mp ht with hL | hR
      · have := (hrows t hL).1
        simp [this]
      · have : t = rowE := List.mem_singleton.mp hR
        subst this
        rfl
    have hnew : buildState b (l ++ [i]) =
        { accounts :=
            [{ id := 0, opening_balance := b,
               current_balance := b + sumSignedTxns (S.transactions ++ [rowE]) }],
          transactions := S.transactions ++ [rowE],
          nextId := S.nextId + 1 } := by
      rw [hstep, insertStep_ok S i b _ hacc hposi, hrowE]
      rw [applyUpdate_single _ b _ hmid]
      have hfull : ({ S with
          transactions := S.transactions ++ [rowE],
          nextId := S.nextId + 1 } : LedgerState).transactions.filter
            (fun t => t.accountId == 0) = S.transactions ++ [rowE] :=
        filter_keep_all _ _ hkeep
      rw [hfull]
    refine ⟨?_, ?_, ?_, ?_⟩
    · rw [hnew]
    · rw [hnew]
      intro t ht
      rcases List.mem_append.mp ht with hL | hR
      · exact ⟨(hrows t hL).1, Nat.lt_succ_of_lt (hrows t hL).2⟩
      · have heq : t = rowE := List.mem_singleton.mp hR
        subst heq
        exact ⟨rfl, Nat.lt_succ_self _⟩
    · rw [hnew]
      intro t ht
      rcases List.mem_append.mp ht with hL | hR
      · obtain ⟨j, hj, hje⟩ := hdates t hL
        exact ⟨j, List.mem_append_left _ hj, hje⟩
      · have heq : t = rowE := List.mem_singleton.mp hR
        subst heq
        exact ⟨i, List.mem_append_right _ (List.mem_singleton.mpr rfl), rfl⟩
    · rw [hnew]
      intro t ht
      rcases List.mem_append.mp ht with hL | hR
      · -- previously stored row: the appended row is filtered out by its id
        have hlt : t.id < S.nextId := (hrows t hL).2
        rw [List.filter_append]
        have hqnew : (decide (rowE.id < t.id) &&
            decide (rowE.transaction_date < t.transaction_date)) = false := by
          have hre : rowE.id = S.nextId := rfl
          have hnlt : ¬ (rowE.id < t.id) := by
            rw [hre]
            omega
          simp [hnlt]
        have hfnew : List.filter (fun u =>
            decide (u.id < t.id) && decide (u.transaction_date < t.transaction_date))
            [rowE] = [] := by
          simp only [List.filter, hqnew]
        rw [hfnew, List.append_nil]
        exact hrb t hL
      · -- the appended row itself
        have heq : t = rowE := List.mem_singleton.mp hR
        subst heq
        rw [List.filter_append]
        have hqself : (decide (rowE.id < rowE.id) &&
            decide (rowE.transaction_date < rowE.transaction_date)) = false := by
          simp
        have hfself : List.filter (fun u =>
            decide (u.id < rowE.id) && decide (u.transaction_date < rowE.transaction_date))
            [rowE] = [] := by
          simp only [List.filter, hqself]
        rw [hfself, List.append_nil]
        have hcongr : S.transactions.filter (fun u =>
            decide (u.id < rowE.id) && decide (u.transaction_date < rowE.transaction_date)) =
            S.transactions.filter (fun t =>
              t.accountId == 0 && decide (t.transaction_date < i.date) &&
                t.id != S.nextId) := by
          refine filter_congr_txns _ _ _ ?_
          intro u hu
          have hu0 : u.accountId = 0 := (hrows u hu).1
          have hult : u.id < S.nextId := (hrows u hu).2
          have hre : rowE.id = S.nextId := rfl
          have hrd : rowE.transaction_date = i.date := rfl
          rw [hre, hrd, hu0]
          have hne : u.id ≠ S.nextId := Nat.ne_of_lt hult
          simp [hult, hne]
        rw [hcongr]
        rfl

theorem specCurrentOf_single (b cur : Int) (ts : List Txn) (nid : Nat) (t : Txn)
    (hkeepall : ∀ u ∈ ts, (u.accountId == 0) = true)
    (hlast : chronLast ts = some t) :
    specCurrentOf
      { accounts := [{ id := 0, opening_balance := b, current_balance := cur }],
        transactions := ts, nextId := nid } 0 = some t.running_balance := by
  unfold specCurrentOf lookupAccount accountTxns
  have hf : ts.filter (fun u => u.accountId == 0) = ts := filter_keep_all _ _ hkeepall
  simp [hf, hlast]

theorem ledgerCurrentOf_single (b cur : Int) (ts : List Txn) (nid : Nat)
    (hkeepall : ∀ u ∈ ts, (u.accountId == 0) = true) :
    ledgerCurrentOf
      { accounts := [{ id := 0, opening_balance := b, current_balance := cur }],
        transactions := ts, nextId := nid } 0 = some (b + sumSignedTxns ts) := by
  unfold ledgerCurrentOf lookupAccount balanceFromLedger accountTxns
  have hf : ts.filter (fun u => u.accountId == 0) = ts := filter_keep_all _ _ hkeepall
  simp [hf]

/-- Claim C8, amended: for an account whose transactions were inserted in
strictly increasing date order (no back-dating, no same-date pairs, no
updates or deletes), the two definitions of current balance coincide: the
`update_account_balance` sum equals the stored running balance of the
chronologically last transaction (opening balance when there are none). -/
theorem claim_C8_amended (b : Int) (ins : List InsertReq) :
    (∀ i ∈ ins, 0 < i.amount) →
    List.Pairwise (fun i j : InsertReq => i.date < j.date) ins →
    specCurrentOf (buildState b ins) 0 = ledgerCurrentOf (buildState b ins) 0 := by
  induction ins using List.reverseRecOn with
  | nil =>
    intro _ _
    simp [buildState, initState, accountSubmitCreate, emptyState, specCurrentOf,
      ledgerCurrentOf, lookupAccount, accountTxns, balanceFromLedger, chronLast,
      sumSignedTxns]
  | append_singleton l i ih =>
    intro hpos hdates
    have hposl : ∀ j ∈ l, 0 < j.amount := fun j hj => hpos j (List.mem_append_left _ hj)
    have hposi : 0 < i.amount := hpos i (List.mem_append_right _ (List.mem_singleton.mpr rfl))
    have hdl : ∀ j ∈ l, j.date < i.date := by
      rw [List.pairwise_append] at hdates
      intro j hj
      exact hdates.2.2 j hj i (List.mem_singleton.mpr rfl)
    obtain ⟨hacc, hrows, hdatesS, hrb⟩ := buildState_inv b l hposl
    have hstep : buildState b (l ++ [i]) = insertStep (buildState b l) i := by
      unfold buildState
      rw [List.foldl_append]
      rfl
    set S := buildState b l with hSdef
    set rowE : Txn :=
      { id := S.nextId, accountId := 0, type := i.type, amount := i.amount,
        transaction_date := i.date,
        running_balance :=
          b + sumSignedTxns (S.transactions.filter (fun t =>
            t.accountId == 0 && decide (t.transaction_date < i.date) &&
              t.id != S.nextId)) + signedReq i } with hrowEdef
    have hrowE : applyCalculateRunningBalance S (reqRow S i) = rowE :=
      applyCalc_reqRow S i b _ hacc
    have hmid : ({ S with
        transactions := S.transactions ++ [rowE],
        nextId := S.nextId + 1 } : LedgerState).accounts =
        [{ id := 0, opening_balance := b,
           current_balance := b + sumSignedTxns S.transactions }] := hacc
    have hkeep : ∀ t ∈ S.transactions ++ [rowE], (t.accountId == 0) = true := by
      intro t ht
      rcases List.mem_append.mp ht with hL | hR
      · have := (hrows t hL).1
        simp [this]
      · have heq : t = rowE := List.mem_singleton.mp hR
        subst heq
        rfl
    have hnew : buildState b (l ++ [i]) =
        { accounts :=
            [{ id := 0, opening_balance := b,
               current_balance := b + sumSignedTxns (S.transactions ++ [rowE]) }],
          transactions := S.transactions ++ [rowE],
          nextId := S.nextId + 1 } := by
      rw [hstep, insertStep_ok S i b _ hacc hposi, hrowE]
      rw [applyUpdate_single _ b _ hmid]
      have hfull : ({ S with
          transactions := S.transactions ++ [rowE],
          nextId := S.nextId + 1 } : LedgerState).transactions.filter
            (fun t => t.accountId == 0) = S.transactions ++ [rowE] :=
        filter_keep_all _ _ hkeep
      rw [hfull]
    -- every earlier row is strictly earlier in the (date, id) order
    have hkey : ∀ u ∈ S.transactions, keyLtB u rowE = true := by
      intro u hu
      obtain ⟨j, hj, hje⟩ := hdatesS u hu
      have hud : u.transaction_date < i.date := by
        rw [hje]
        exact hdl j hj
      have hrd : rowE.transaction_date = i.date := rfl
      unfold keyLtB
      rw [hrd]
      simp [hud]
    have hlast : chronLast (S.transactions ++ [rowE]) = some rowE :=
      chronLast_snoc _ _ hkey
    rw [hnew]
    rw [specCurrentOf_single b _ _ _ rowE hkeep hlast]
    rw [ledgerCurrentOf_single b _ _ _ hkeep]
    -- both sides as explicit sums
    have hfiltall : S.transactions.filter (fun t =>
        t.accountId == 0 && decide (t.transaction_date < i.date) &&
          t.id != S.nextId) = S.transactions := by
      refine filter_keep_all _ _ ?_
      intro u hu
      have hu0 : u.accountId = 0 := (hrows u hu).1
      have hult : u.id < S.nextId := (hrows u hu).2
      obtain ⟨j, hj, hje⟩ := hdatesS u hu
      have hud : u.transaction_date < i.date := by
        rw [hje]
        exact hdl j hj
      have hne : u.id ≠ S.nextId := Nat.ne_of_lt hult
      rw [hu0]
      simp [hud, hne]
    have hrbval : rowE.running_balance = b + sumSignedTxns S.transactions + signedReq i := by
      rw [hrowEdef]
      show b + sumSignedTxns (S.transactions.filter (fun t =>
        t.accountId == 0 && decide (t.transaction_date < i.date) &&
          t.id != S.nextId)) + signedReq i = b + sumSignedTxns S.transactions + signedReq i
      rw [hfiltall]
    rw [hrbval, sumSignedTxns_append]
    have hsig : sumSignedTxns [rowE] = signedReq i := by
      show txnSigned rowE + 0 = signedReq i
      have : txnSigned rowE = signedReq i := rfl
      rw [this, add_zero]
    rw [hsig]
    rw [add_assoc]

/-- Claim C2, amended: in any state built by inserting valid transactions
into a fresh account, every stored `running_balance` equals the opening
balance plus the signed sum of the transactions inserted before it whose
`transaction_date` is strictly earlier, plus its own signed amount —
same-date peers are excluded by the trigger's strict `<` comparison (ids
record insertion order). -/
theorem claim_C2_amended (b : Int) (ins : List InsertReq)
    (hpos : ∀ i ∈ ins, 0 < i.amount) :
    ∀ t ∈ (buildState b ins).transactions,
      t.running_balance =
        b + sumSignedTxns ((buildState b ins).transactions.filter (fun u =>
          decide (u.id < t.id) && decide (u.transaction_date < t.transaction_date))) +
          txnSigned t :=
  (buildState_inv b ins hpos).2.2.2

theorem claim_C2_amended_witness :
    (∀ i ∈ ([⟨TxnType.credit, 100, 5⟩, ⟨TxnType.credit, 50, 5⟩] : List InsertReq),
      (0 : Int) < i.amount) ∧
    (⟨1, 0, TxnType.credit, 50, 5, 50⟩ : Txn) ∈
      (buildState 0 [⟨TxnType.credit, 100, 5⟩, ⟨TxnType.credit, 50, 5⟩]).transactions ∧
    (⟨1, 0, TxnType.credit, 50, 5, 50⟩ : Txn).running_balance =
      0 + sumSignedTxns
        ((buildState 0 [⟨TxnType.credit, 100, 5⟩, ⟨TxnType.credit, 50, 5⟩]).transactions.filter
          (fun u => decide (u.id < 1) && decide (u.transaction_date < 5))) +
        txnSigned ⟨1, 0, TxnType.credit, 50, 5, 50⟩ :=
  ⟨by decide, by decide,
    claim_C2_amended 0 [⟨TxnType.credit, 100, 5⟩, ⟨TxnType.credit, 50, 5⟩]
      (by decide) ⟨1, 0, TxnType.credit, 50, 5, 50⟩ (by decide)⟩

theorem claim_C8_amended_witness :
    (∀ i ∈ ([⟨TxnType.credit, 100, 1⟩, ⟨TxnType.debit, 30, 3⟩] : List InsertReq),
      (0 : Int) < i.amount) ∧
    List.Pairwise (fun i j : InsertReq => i.date < j.date)
      ([⟨TxnType.credit, 100, 1⟩, ⟨TxnType.debit, 30, 3⟩] : List InsertReq) ∧
    specCurrentOf (buildState 5 [⟨TxnType.credit, 100, 1⟩, ⟨TxnType.debit, 30, 3⟩]) 0 =
      ledgerCurrentOf (buildState 5 [⟨TxnType.credit, 100, 1⟩, ⟨TxnType.debit, 30, 3⟩]) 0 :=
  ⟨by decide, by decide,
    claim_C8_amended 5 [⟨TxnType.credit, 100, 1⟩, ⟨TxnType.debit, 30, 3⟩]
      (by decide) (by decide)⟩
